import Mathlib

/-!
# QuartzNet swarm node — verification development

Shallow embedding of the QuartzNet swarm-node core (src/swarm.rs,
src/session_manager.rs, src/persistence/channel.rs, src/event.rs,
src/message.rs) together with proofs about the embedded operations.

Conventions used throughout:

* Machine bytes are `Nat` values `< 256`; byte strings are `List Nat`.
* `u64`/`u32`/`u16` values are `Nat` with explicit `% 2 ^ 64` (etc.)
  wherever Rust release-mode wrapping arithmetic matters.
* Fallible Rust paths (`Result` / bincode errors) are `Except` / `Option`.
* The external gnunet crate's opaque types (`HashCode`, `Signature`,
  `PublicKey`) are modelled as fixed-width byte strings; the hash function
  and signature verifier are parameters (`Crypto`), since they live outside
  this repository.
* The persistence gateway (an embedded SQL database) is modelled at the
  abstract-operation interface the core invokes (`store_profile`,
  `fetch_profile`, `store_event`, `get_timeline`, `load_post`), which is how
  the specification scopes it.
-/

namespace Quartznet

set_option autoImplicit false
set_option maxRecDepth 100000

/-- A byte string (each element intended `< 256`). -/
abbrev Bytes := List Nat

def u64Mod : Nat := 2 ^ 64

/-- Little-endian value of a byte list (first byte is least significant). -/
def leVal : Bytes → Nat
  | [] => 0
  | b :: r => b % 256 + 256 * leVal r

/-- Little-endian fixed-width encoding of `n` into `width` bytes
(bincode's fixed-int encoding, used for `u64`/`u32`/`u16`). -/
def leBytes (width n : Nat) : Bytes :=
  match width with
  | 0 => []
  | w + 1 => n % 256 :: leBytes w (n / 256)

/-- bincode: read `n` raw bytes from the head of the input, returning the
bytes and the remainder; fails when the input is too short. -/
def deserBytes (n : Nat) (m : Bytes) : Option (Bytes × Bytes) :=
  if n ≤ m.length then some (m.take n, m.drop n) else none

/-- bincode fixed-int `u64` (8 bytes, little-endian). -/
def deserU64 (m : Bytes) : Option (Nat × Bytes) :=
  (deserBytes 8 m).map (fun p => (leVal p.1, p.2))

/-- bincode fixed-int `u32` (4 bytes, little-endian). -/
def deserU32 (m : Bytes) : Option (Nat × Bytes) :=
  (deserBytes 4 m).map (fun p => (leVal p.1, p.2))

/-- bincode fixed-int `u16` (2 bytes, little-endian). -/
def deserU16 (m : Bytes) : Option (Nat × Bytes) :=
  (deserBytes 2 m).map (fun p => (leVal p.1, p.2))

/-- bincode `u8` (1 byte). -/
def deserU8 (m : Bytes) : Option (Nat × Bytes) :=
  match m with
  | [] => none
  | b :: r => some (b % 256, r)

/-- Whether a byte is a UTF-8 continuation byte (`0x80..=0xBF`). -/
def utf8Cont (b : Nat) : Bool := 0x80 ≤ b && b ≤ 0xBF

/-- Strict UTF-8 validity, as checked by Rust's `String::from_utf8`
(rejects overlong encodings, surrogates, and values above U+10FFFF). -/
def utf8Valid : Bytes → Bool
  | [] => true
  | b :: r =>
    if b < 0x80 then utf8Valid r
    else if 0xC2 ≤ b && b ≤ 0xDF then
      match r with
      | c1 :: r1 => utf8Cont c1 && utf8Valid r1
      | _ => false
    else if b = 0xE0 then
      match r with
      | c1 :: c2 :: r2 => (0xA0 ≤ c1 && c1 ≤ 0xBF) && utf8Cont c2 && utf8Valid r2
      | _ => false
    else if (0xE1 ≤ b && b ≤ 0xEC) || b = 0xEE || b = 0xEF then
      match r with
      | c1 :: c2 :: r2 => utf8Cont c1 && utf8Cont c2 && utf8Valid r2
      | _ => false
    else if b = 0xED then
      match r with
      | c1 :: c2 :: r2 => (0x80 ≤ c1 && c1 ≤ 0x9F) && utf8Cont c2 && utf8Valid r2
      | _ => false
    else if b = 0xF0 then
      match r with
      | c1 :: c2 :: c3 :: r3 =>
        (0x90 ≤ c1 && c1 ≤ 0xBF) && utf8Cont c2 && utf8Cont c3 && utf8Valid r3
      | _ => false
    else if 0xF1 ≤ b && b ≤ 0xF3 then
      match r with
      | c1 :: c2 :: c3 :: r3 => utf8Cont c1 && utf8Cont c2 && utf8Cont c3 && utf8Valid r3
      | _ => false
    else if b = 0xF4 then
      match r with
      | c1 :: c2 :: c3 :: r3 =>
        (0x80 ≤ c1 && c1 ≤ 0x8F) && utf8Cont c2 && utf8Cont c3 && utf8Valid r3
      | _ => false
    else false

/-! ## Opaque gnunet types

`PublicKey` is 33 bytes on the wire (src/swarm.rs line 326: `let mut step =
33usize; // Size of the public key in bytes`).  `HashCode` (a 512-bit GNUnet
hash) and `Signature` are modelled as 64-byte strings.  Their exact widths
are external to this repository; they enter the proofs only through these
named constants. -/

def publicKeySize : Nat := 33
def hashCodeSize : Nat := 64
def signatureSize : Nat := 64

/-- External crypto operations (gnunet): content hashing and signature
verification.  `hashGen` models `HashCode::generate` /
`HashCode::generate_from` (hash of the bincode serialization);
`verifyHash sig hash key` models `Signature::verify_hash`. -/
structure Crypto where
  hashGen : Bytes → Bytes
  verifyHash : Bytes → Bytes → Bytes → Bool

/-! ## Wire structures (src/event.rs, src/message.rs) -/

/-- Wire type `EventType` (src/event.rs): `Channel`, or `Publisher` with the
33-byte publisher public key. -/
inductive EventType where
  | channel
  | publisher (address : Bytes)
  deriving DecidableEq, Repr

/-- Custom `Deserialize` for `EventType` (src/event.rs, `EventTypeVisitor`):
one tag byte, `0` → `Channel`, `1` followed by the public key → `Publisher`,
anything else is an error. -/
def deserEventType (m : Bytes) : Option (EventType × Bytes) :=
  match m with
  | [] => none
  | 0 :: r => some (.channel, r)
  | 1 :: r => (deserBytes publicKeySize r).map (fun p => (EventType.publisher p.1, p.2))
  | _ :: _ => none

/-- Result of `bincode::serialized_size` on an `EventType` (custom
`Serialize` in src/event.rs: one tag byte, plus the key for `Publisher`). -/
def serializedSizeEventType : EventType → Nat
  | .channel => 1
  | .publisher _ => 1 + publicKeySize

/-- Wire structure `Profile` (src/message.rs): revision, title, description,
optional profile-picture hash.  Strings are kept as their byte content. -/
structure Profile where
  revision : Nat
  title : Bytes
  description : Bytes
  profilePicture : Option Bytes
  deriving DecidableEq, Repr

/-- Wire structure `ChannelProfile` (src/message.rs): a `Profile` plus an
optional stylesheet hash. -/
structure ChannelProfile where
  base : Profile
  stylesheet : Option Bytes
  deriving DecidableEq, Repr

/-- Wire structure `UpdateChannelProfileEventMessage` (src/message.rs). -/
structure UpdateChannelProfileEventMessage where
  hash : Bytes
  signature : Bytes
  profile : ChannelProfile
  deriving DecidableEq, Repr

/-- bincode encoding of `Option<HashCode>`: tag byte `0` for `None`,
`1` followed by the payload for `Some`. -/
def serOptionHash : Option Bytes → Bytes
  | none => [0]
  | some h => 1 :: h

/-- bincode decoding of `Option<HashCode>`. -/
def deserOptionHash (m : Bytes) : Option (Option Bytes × Bytes) :=
  match m with
  | [] => none
  | 0 :: r => some (none, r)
  | 1 :: r => (deserBytes hashCodeSize r).map (fun p => (some p.1, p.2))
  | _ :: _ => none

/-- Custom `Serialize` for `Profile` (src/message.rs): `u64 revision`,
`u8 title_len` then the title bytes, `u16 description_len` then the
description bytes, then the optional picture hash.  The length bytes are the
Rust `as u8` / `as u16` casts of the string lengths. -/
def serProfile (p : Profile) : Bytes :=
  leBytes 8 p.revision ++ [p.title.length % 256] ++ p.title
    ++ leBytes 2 p.description.length ++ p.description
    ++ serOptionHash p.profilePicture

/-- Derived `Serialize` for `ChannelProfile`: the base profile followed by
the optional stylesheet hash. -/
def serChannelProfile (cp : ChannelProfile) : Bytes :=
  serProfile cp.base ++ serOptionHash cp.stylesheet

/-- Custom `Deserialize` for `Profile` (src/message.rs, `ProfileVisitor`):
revision, length-prefixed title and description (each checked to be valid
UTF-8 by `String::from_utf8`), optional picture hash. -/
def deserProfile (m : Bytes) : Option (Profile × Bytes) := do
  let (rev, m) ← deserU64 m
  let (tlen, m) ← deserU8 m
  let (title, m) ← deserBytes tlen m
  if !utf8Valid title then none else
  let (dlen, m) ← deserU16 m
  let (descr, m) ← deserBytes dlen m
  if !utf8Valid descr then none else
  let (pic, m) ← deserOptionHash m
  some ({ revision := rev, title := title, description := descr,
          profilePicture := pic }, m)

/-- Derived `Deserialize` for `ChannelProfile`. -/
def deserChannelProfile (m : Bytes) : Option (ChannelProfile × Bytes) := do
  let (base, m) ← deserProfile m
  let (sty, m) ← deserOptionHash m
  some ({ base := base, stylesheet := sty }, m)

/-- Derived `Deserialize` for `UpdateChannelProfileEventMessage`:
hash, signature, channel profile, in field order. -/
def deserUCPEM (m : Bytes) : Option (UpdateChannelProfileEventMessage × Bytes) := do
  let (h, m) ← deserBytes hashCodeSize m
  let (s, m) ← deserBytes signatureSize m
  let (cp, m) ← deserChannelProfile m
  some ({ hash := h, signature := s, profile := cp }, m)

/-- bincode encoding of `UpdateChannelProfileEventMessage`. -/
def serUCPEM (msg : UpdateChannelProfileEventMessage) : Bytes :=
  msg.hash ++ msg.signature ++ serChannelProfile msg.profile

/-- bincode decoding of `Vec<PublicKey>`: `u64` element count followed by
the keys (used by `process_event_channel_update_publisher_list`). -/
def deserKeys : Nat → Bytes → Option (List Bytes × Bytes)
  | 0, m => some ([], m)
  | n + 1, m => do
    let (k, m) ← deserBytes publicKeySize m
    let (ks, m) ← deserKeys n m
    some (k :: ks, m)

def deserPublisherList (m : Bytes) : Option (List Bytes × Bytes) := do
  let (n, m) ← deserU64 m
  deserKeys n m

/-- Custom `Serialize` for `EventType` (src/event.rs): tag byte `0` for
`Channel`, tag byte `1` followed by the key for `Publisher`. -/
def serEventType : EventType → Bytes
  | .channel => [0]
  | .publisher address => 1 :: address

/-! ## Error taxonomy (src/swarm.rs) -/

/-- Error enumeration `MessageMalformedError` (src/swarm.rs).  The bincode /
UTF-8 error payloads are collapsed to their description strings. -/
inductive MessageMalformedError where
  | deserializationIssue (descr : String)
  | invalidBoolean (b : Nat) (descr : String)
  | invalidHash (descr : String)
  | invalidSignature (descr : String)
  | invalidTypeId (b : Nat) (descr : String)
  | invalidUtf8 (descr : String)
  | invalidEventId (id : Nat)
  | missingData (descr : String)
  | unknownPublisher (key : Bytes)
  deriving DecidableEq, Repr

/-! ## Persistence state (abstract operations of src/persistence/channel.rs,
src/persistence/timeline.rs, as scoped by the specification) -/

/-- A publisher timeline as seen through the persistence gateway: the
publisher key, the set of post ids held locally (`load_post` returns a post
exactly for these ids), and the raw events stored via
`timeline.store_event`. -/
structure Timeline where
  key : Bytes
  posts : List Nat
  events : List (Nat × Bytes)
  deriving DecidableEq, Repr

/-- The persistent and in-memory state a `Node` operates on: the
`latest_event_id` mutex content, the channel's owner address
(`load_address`), the stored channel profile (`store_profile` /
`fetch_profile`), the raw channel events (`channel.store_event`), and the
known publisher timelines (`get_timeline`). -/
structure NodeState where
  latestEventId : Nat
  channelAddress : Bytes
  channelProfile : Option ChannelProfile
  channelEvents : List (Nat × Bytes)
  timelines : List Timeline
  deriving DecidableEq, Repr

/-- Abstract `get_timeline(publisher_key)`: the timeline for the key, if
known. -/
def getTimeline (s : NodeState) (key : Bytes) : Option Timeline :=
  s.timelines.find? (fun t => t.key == key)

/-- Abstract `timeline.store_event(id, message)` lifted to the node state. -/
def storeTimelineEvent (s : NodeState) (key : Bytes) (id : Nat) (message : Bytes) :
    NodeState :=
  { s with timelines := s.timelines.map (fun t =>
      if t.key == key then { t with events := t.events ++ [(id, message)] } else t) }

/-- Abstract `timeline.load_post(post_id)`: a post (identified by its id;
its content is irrelevant to the embedded code paths, which discard it) when
held locally, `none` otherwise. -/
def loadPost (t : Timeline) (postId : Nat) : Option Nat :=
  if t.posts.contains postId then some postId else none

/-! ## Event processor (src/swarm.rs lines 218-390) -/

/-- Embeds `process_event_channel_update_profile` (src/swarm.rs lines
285-313): parse the message, check the profile hash, check the owner
signature against `load_address`, and store the profile when there is no
current one or the revision strictly increases.  (The source also builds
`profile_data`/`checksum_content` buffers that it never uses; they are
omitted.) -/
def processEventChannelUpdateProfile (crypto : Crypto) (s : NodeState) (id : Nat)
    (message : Bytes) : Except MessageMalformedError NodeState :=
  match deserUCPEM message with
  | none => .error (.deserializationIssue "upgrade profile event message")
  | some (msg, _) =>
    -- `HashCode::generate_from(&msg.profile) != msg.hash`
    if crypto.hashGen (serChannelProfile msg.profile) ≠ msg.hash then
      .error (.invalidHash "upgrade profile event message")
    else if !crypto.verifyHash msg.signature msg.hash s.channelAddress then
      .error (.invalidSignature "upgrade profile event message")
    else
      -- `current_profile.is_none() || msg.profile.base.revision >
      --  current_profile.unwrap().base.revision` (short-circuited unwrap)
      if (match s.channelProfile with
          | none => true
          | some current => msg.profile.base.revision > current.base.revision) then
        .ok { s with channelProfile := some msg.profile }
      else
        .ok s

/-- Embeds `process_event_channel_update_publisher_list` (src/swarm.rs lines
315-323): the publisher list is parsed and then ignored (`TODO` in the
source). -/
def processEventChannelUpdatePublisherList (s : NodeState) (id : Nat)
    (message : Bytes) : Except MessageMalformedError NodeState :=
  match deserPublisherList message with
  | none => .error (.deserializationIssue "publisher address")
  | some _ => .ok s

/-- Embeds `process_event_channel` (src/swarm.rs lines 269-283): dispatch on
the leading `ChannelEventType` byte. -/
def processEventChannel (crypto : Crypto) (s : NodeState) (id : Nat)
    (message : Bytes) : Except MessageMalformedError NodeState :=
  match message with
  | [] => .error (.missingData "channel event")
  | b :: rest =>
    if b = 0 then processEventChannelUpdateProfile crypto s id rest
    else if b = 1 then processEventChannelUpdatePublisherList s id rest
    else .error (.invalidTypeId b "channel event type")

/-- Embeds `process_event_publisher_update_profile` (src/swarm.rs lines
382-390): the profile is parsed and then ignored (`TODO` in the source). -/
def processEventPublisherUpdateProfile (s : NodeState) (address : Bytes)
    (message : Bytes) : Except MessageMalformedError NodeState :=
  match deserProfile message with
  | none => .error (.deserializationIssue "upgrade profile event profile")
  | some _ => .ok s

/-- Embeds `process_event_publisher_publish_post` (src/swarm.rs lines
358-368): a `u64` post id is parsed and then ignored (`TODO` in the
source).  `process_event_publisher_revise_post` and
`process_event_publisher_forget_post` have the same body. -/
def processEventPublisherPostId (s : NodeState) (address : Bytes)
    (message : Bytes) : Except MessageMalformedError NodeState :=
  match deserU64 message with
  | none => .error (.deserializationIssue "publisher event post id")
  | some _ => .ok s

/-- Embeds `process_event_publisher` (src/swarm.rs lines 325-344): skip
`step = 33` bytes (the size of the public key), read the
`PublisherEventType` byte at index 33, and dispatch the remainder. -/
def processEventPublisher (s : NodeState) (id : Nat) (address : Bytes)
    (message : Bytes) : Except MessageMalformedError NodeState :=
  if message.length < publicKeySize + 1 then
    .error (.missingData "publisher event")
  else
    let b := message.getD publicKeySize 0
    let rest := message.drop (publicKeySize + 1)
    if b = 0 then processEventPublisherUpdateProfile s address rest
    else if b = 1 then processEventPublisherPostId s address rest
    else if b = 2 then processEventPublisherPostId s address rest
    else if b = 3 then processEventPublisherPostId s address rest
    else .error (.invalidTypeId b "publisher event type")

/-- Embeds the `match event_type` apply step of `process_event`
(src/swarm.rs lines 232-235).  Note the source passes `&message[1..]` — one
byte past the start of the `u64` event id — to both handlers. -/
def processEventApply (crypto : Crypto) (s : NodeState) (id : Nat)
    (eventType : EventType) (message : Bytes) : Except MessageMalformedError NodeState :=
  match eventType with
  | .channel => processEventChannel crypto s id message
  | .publisher address => processEventPublisher s id address message

/-- Embeds `process_event` (src/swarm.rs lines 218-267), up to the
rebroadcast step (which the source performs only when no error was raised;
see `rebroadcastMessage`).  `message` is the frame after the leading
`MessageDirectionType` byte was stripped by `process_message`.

The `u64` arithmetic uses release-mode wrapping semantics: both
`*latest_event_id + 1` and `id - *latest_event_id` are computed modulo
`2 ^ 64` (a debug build would panic on the underflow exercised for stale
event ids). -/
def processEvent (crypto : Crypto) (s : NodeState) (message : Bytes) :
    Except MessageMalformedError NodeState :=
  match deserU64 message with
  | none => .error (.deserializationIssue "unknown")
  | some (id, _) =>
    match deserEventType (message.drop 8) with
    | none => .error (.deserializationIssue "unknown")
    | some (eventType, _) =>
      let latest := s.latestEventId
      if id = (latest + 1) % u64Mod then
        match processEventApply crypto s id eventType (message.drop 1) with
        | .error e => .error e
        | .ok s' => .ok { s' with latestEventId := id }
      else if (id + u64Mod - latest % u64Mod) % u64Mod > 100 then
        .error (.invalidEventId id)
      else if id > latest then
        let start := 8 + serializedSizeEventType eventType
        let eventMessage := message.drop start
        match eventType with
        | .channel =>
          .ok { s with channelEvents := s.channelEvents ++ [(id, eventMessage)] }
        | .publisher address =>
          match getTimeline s address with
          | none => .error (.unknownPublisher address)
          | some _ => .ok (storeTimelineEvent s address id eventMessage)
      else
        .ok s

/-! ## Rebroadcast (src/swarm.rs lines 481-503) and the receive loop -/

/-- The sockets a node holds: the parent socket's channel id and the child
sockets' channel ids. -/
structure NetConfig where
  parentId : Nat
  childIds : List Nat
  deriving DecidableEq, Repr

/-- Embeds `rebroadcast_message` (src/swarm.rs lines 481-503) as the list of
attempted sends `(channel id, payload)` in order.  Translated faithfully
from the source:

* a `complete_msg` buffer with the `MessageDirectionType::Event` byte
  prepended is built but never sent — every `send` call transmits
  `message`;
* the parent socket is skipped when its id equals `skip_channel_id`;
* the child loop locks each child socket (`csock`) but then calls
  `psock.send`, i.e. it sends on the parent socket once per child and never
  checks `skip_channel_id`.

Per-send failures only invoke `on_error` and do not remove later entries,
so the list of attempted sends is independent of individual failures. -/
def rebroadcastMessage (net : NetConfig) (message : Bytes) (skipChannelId : Nat) :
    List (Nat × Bytes) :=
  let parentSends := if net.parentId ≠ skipChannelId then [(net.parentId, message)] else []
  let childSends := net.childIds.map (fun _ => (net.parentId, message))
  parentSends ++ childSends

/-- Reaction of one iteration of `peer_receive_loop` (src/swarm.rs lines
162-191) to the result of `process_message`: a `MessageMalformed` error
calls `on_bad_peer` and breaks the loop; success continues it.  (The
embedded code paths produce only `MessageMalformed` errors; transport and
persistence errors are outside the model.) -/
structure LoopReaction where
  reportBadPeer : Bool
  continueLoop : Bool
  deriving DecidableEq, Repr

def loopStep (r : Except MessageMalformedError NodeState) : LoopReaction :=
  match r with
  | .error _ => { reportBadPeer := true, continueLoop := false }
  | .ok _ => { reportBadPeer := false, continueLoop := true }

/-! ## Posts request handler (src/swarm.rs lines 392-465) -/

/-- Wire enumeration `ResponseResultType` (src/message.rs). -/
inductive ResponseResultType where
  | success
  | internalError
  deriving DecidableEq, Repr

/-- Embeds the local `get_bit` of `process_request_posts` (src/swarm.rs
lines 423-428): bit `index % 8` (LSB-first) of byte `index / 8`.  The
source indexes the slice directly (panicking when out of range, guarded
only by a `debug_assert`); out-of-range reads are modelled as byte `0`. -/
def getBit (mask : Bytes) (index : Nat) : Bool :=
  (mask.getD (index / 8) 0).testBit (index % 8)

/-- Embeds the local `set_bit` of `process_request_posts` (src/swarm.rs
lines 431-437).  Note the source initialises a fresh `byte = 0`, sets only
the requested bit in it, and assigns it to `mask[index / 8]`, overwriting
any bits previously set in that byte. -/
def setBit (mask : Bytes) (index : Nat) : Bytes :=
  mask.set (index / 8) (2 ^ (index % 8))

/-- Embeds `process_request_posts` (src/swarm.rs lines 414-465): decode the
`Posts` request (`timeline_id`, `post_id_start`, `post_id_count`), slice the
present mask, look up the timeline (`UnknownPublisher` when absent), and
loop `i` in `0..post_id_count`.  Translated faithfully from the source:

* `get_bit(mask, i)` is computed and its result never used;
* the lookup is `timeline.load_post(i)` — the loop index, not
  `post_id_start + i`;
* found posts are pushed into a `posts` vector that the function then
  discards: only `(Success, found_mask)` is returned;
* `set_bit` overwrites whole mask bytes (see `setBit`).

The source takes `&message[next..next+mask_length]` (a panic when the
message is short); the model truncates instead, and the theorems only
instantiate in-range messages. -/
def processRequestPosts (s : NodeState) (message : Bytes) :
    Except MessageMalformedError (ResponseResultType × Bytes) :=
  match (do
      let (tid, m) ← deserBytes publicKeySize message
      let (start, m) ← deserU64 m
      let (count, _) ← deserU16 m
      pure (tid, start, count) : Option (Bytes × Nat × Nat)) with
  | none => .error (.deserializationIssue "posts request")
  | some (timelineId, _postIdStart, postIdCount) =>
    let next := 33 + 8 + 2
    let maskLength := postIdCount / 8 + (if postIdCount % 8 > 0 then 1 else 0)
    let mask := (message.drop next).take maskLength
    let foundMask : Bytes := List.replicate mask.length 0
    match getTimeline s timelineId with
    | none => .error (.unknownPublisher timelineId)
    | some timeline =>
      let result := (List.range postIdCount).foldl
        (fun (acc : List Nat × Bytes) i =>
          let _bit := getBit mask i
          match loadPost timeline i with
          | none => acc
          | some p => (acc.1 ++ [p], setBit acc.2 i))
        ([], foundMask)
      .ok (.success, result.2)

/-! ## Block calculation (src/persistence/channel.rs lines 136-175) -/

/-- Embeds `breakup_data` (src/persistence/channel.rs lines 136-162): while
more than `block_len` bytes remain, push a `block_len`-byte slice; then push
the remainder and stop.  The source loops forever when `block_len = 0` and
`data` is nonempty; the model is meaningful only for `blockLen > 0` (the
`blockLen = 0` guard returns `[data]` to stay total). -/
def breakupData (data : Bytes) (blockLen : Nat) : List Bytes :=
  if blockLen = 0 then [data]
  else if data.length > blockLen then
    data.take blockLen :: breakupData (data.drop blockLen) blockLen
  else [data]
termination_by data.length
decreasing_by simp [List.length_drop]; omega

/-- Embeds `hash_blocks` (src/persistence/channel.rs lines 164-175): push
the content hash of each block, in order.  The hash function is the
external `gnunet::crypto::HashCode::generate`, passed as a parameter. -/
def hashBlocks (hashGen : Bytes → Bytes) (blocks : List Bytes) : List Bytes :=
  blocks.foldl (fun results block => results ++ [hashGen block]) []

/-! ## Session manager (src/session_manager.rs)

The session manager is asynchronous: `request` registers a slot and awaits a
bounded(1) channel under a 10 000 ms timeout, `respond` delivers into the
slot.  It is embedded as a state machine over the interleaving of the three
operational events — a request registering, its timeout firing, a response
arriving — which is the only temporal structure the claims refer to. -/

def SESSION_TIMEOUT : Nat := 10000

/-- Status of one `request` caller (a waiter): still awaiting `rx.recv()`,
returned `Some bytes`, returned `None` after the timeout, or panicked in
`r.expect("channel closed")` because its sender was dropped. -/
inductive WaiterOutcome where
  | pending
  | gotValue (v : Bytes)
  | timedOut
  | panicked
  deriving DecidableEq, Repr

/-- What a `respond` call did: returned `true`, returned `false`, or
panicked in `tx.send(..).expect("channel closed")`. -/
inductive RespondOutcome where
  | returnedTrue
  | returnedFalse
  | panicked
  deriving DecidableEq, Repr

/-- State of a `SessionManager` together with its waiters: `sessions` is
the `HashMap<u32, SessionData>` (each slot holds the waiter whose channel
its `tx` feeds), `waiters` tracks each waiter's outcome.  A waiter's
receiver is alive exactly while its outcome is `pending`. -/
structure SessionState where
  sessions : Nat → Option Nat
  waiters : Nat → Option WaiterOutcome

/-- A session manager with no slots and no waiters (`SessionManager::new`). -/
def smNew : SessionState :=
  { sessions := fun _ => none, waiters := fun _ => none }

/-- Embeds the registration half of `request` (src/session_manager.rs lines
38-42): create a fresh bounded(1) channel for waiter `w` and
`sessions.insert(session_id, SessionData { tx })`.  `HashMap::insert` drops
the previous `SessionData`, and dropping its `tx` closes the channel of a
still-pending previous waiter, whose `r.expect("channel closed")` at line
45 then panics. -/
def startRequest (st : SessionState) (w sessionId : Nat) : SessionState :=
  let waiters1 : Nat → Option WaiterOutcome := fun x =>
    if st.sessions sessionId = some x ∧ st.waiters x = some .pending then
      some .panicked
    else st.waiters x
  { sessions := fun i => if i = sessionId then some w else st.sessions i,
    waiters := fun x => if x = w then some .pending else waiters1 x }

/-- Embeds the timeout arm of `request` (src/session_manager.rs lines
43-46): after `SESSION_TIMEOUT` with no delivery, the call returns `None`
and the receiver is dropped.  Note the source does NOT remove the
`sessions` entry. -/
def timeoutFires (st : SessionState) (w : Nat) : SessionState :=
  { st with waiters := fun x =>
      if x = w ∧ st.waiters w = some .pending then some .timedOut else st.waiters x }

/-- Embeds `respond` (src/session_manager.rs lines 51-63): remove the slot
(`None` → return `false`); otherwise `tx.send(message)` — which succeeds and
delivers exactly when the waiter still pends on `rx.recv()`, and otherwise
returns `Err`, making `.expect("channel closed")` panic. -/
def respond (st : SessionState) (sessionId : Nat) (message : Bytes) :
    SessionState × RespondOutcome :=
  match st.sessions sessionId with
  | none => (st, .returnedFalse)
  | some w =>
    let st' : SessionState :=
      { st with sessions := fun i => if i = sessionId then none else st.sessions i }
    match st.waiters w with
    | some .pending =>
      ({ st' with waiters := fun x =>
           if x = w then some (.gotValue message) else st'.waiters x },
       .returnedTrue)
    | _ => (st', .panicked)

/-! ## Concrete scenario inputs -/

/-- Concrete crypto instance for scenario evaluations: the "hash" of a byte
string is its length (8 bytes little-endian) followed by its first 56 bytes
zero-padded, and every signature verifies.  The repository treats both
operations as opaque, so any executable instance is admissible. -/
def scenarioCrypto : Crypto :=
  { hashGen := fun b => leBytes 8 b.length ++ (b ++ List.replicate 56 0).take 56,
    verifyHash := fun _ _ _ => true }

/-- A minimal channel profile with the given revision (empty title and
description, no picture, no stylesheet). -/
def scenarioProfile (rev : Nat) : ChannelProfile :=
  { base := { revision := rev, title := [], description := [],
              profilePicture := none },
    stylesheet := none }

/-- Event frame (after the leading direction byte was stripped) carrying
event id `id` and a valid `Channel::UpdateChannelProfile` for
`scenarioProfile rev`, laid out per the specified wire format:
`u64 event_id | u8 event_type_tag = 0 | u8 ChannelEventType = 0 |
hash | signature | profile`, with `hash` the correct content hash of the
profile and a signature the scenario crypto accepts. -/
def profileEventFrame (id rev : Nat) : Bytes :=
  let profile := scenarioProfile rev
  leBytes 8 id ++ serEventType .channel ++ [0] ++
    serUCPEM { hash := scenarioCrypto.hashGen (serChannelProfile profile),
               signature := List.replicate signatureSize 0,
               profile := profile }

/-- A freshly bootstrapped node state: `latest_event_id = 0`, no profile, no
stored events, no known timelines. -/
def bootState : NodeState :=
  { latestEventId := 0, channelAddress := List.replicate publicKeySize 7,
    channelProfile := none, channelEvents := [], timelines := [] }

/-- The publisher key of the Posts-request scenario. -/
def postsKey : Bytes := List.replicate publicKeySize 5

/-- Node state for the Posts-request scenario: one known timeline holding
posts 0, 2 and 3. -/
def postsState : NodeState :=
  { bootState with
    timelines := [{ key := postsKey, posts := [0, 2, 3], events := [] }] }

/-- Posts request payload `{publisher_key, start = 0, count = 4,
present_mask = 0b1111}`. -/
def postsRequest : Bytes := postsKey ++ leBytes 8 0 ++ leBytes 2 4 ++ [15]

/-- A valid `UpdateChannelProfileEventMessage` for revision 1 under the
scenario crypto. -/
def profileMsg : UpdateChannelProfileEventMessage :=
  { hash := scenarioCrypto.hashGen (serChannelProfile (scenarioProfile 1)),
    signature := List.replicate signatureSize 0,
    profile := scenarioProfile 1 }

/-- The bincode encoding of `profileMsg`. -/
def profileMsgBytes : Bytes := serUCPEM profileMsg

/-- Event frame for the stale-event scenario: event id 1, `Channel` tag. -/
def staleFrame : Bytes := leBytes 8 1 ++ serEventType .channel

/-- Event frame for the DoS-bound scenario: event id 101, `Channel` tag. -/
def dosFrame : Bytes := leBytes 8 101 ++ serEventType .channel

/-! ## Helper lemmas -/

theorem hashBlocks_eq_map (H : Bytes → Bytes) (blocks : List Bytes) :
    hashBlocks H blocks = blocks.map H := by
  have key : ∀ (bs : List Bytes) (acc : List Bytes),
      bs.foldl (fun results block => results ++ [H block]) acc = acc ++ bs.map H := by
    intro bs
    induction bs with
    | nil => intro acc; simp
    | cons b bs ih => intro acc; simp [ih]
  simpa [hashBlocks] using key blocks []

theorem breakupData_ne_nil (d : Bytes) (B : Nat) : breakupData d B ≠ [] := by
  rw [breakupData]
  split
  · simp
  · split <;> simp

theorem breakupData_join (B : Nat) (hB : 0 < B) (d : Bytes) :
    (breakupData d B).flatten = d := by
  have key : ∀ (n : Nat) (d : Bytes), d.length ≤ n → (breakupData d B).flatten = d := by
    intro n
    induction n with
    | zero =>
      intro d hd
      rw [breakupData, if_neg (by omega : ¬ B = 0), if_neg (by omega : ¬ d.length > B)]
      simp
    | succ n ih =>
      intro d hd
      rw [breakupData, if_neg (by omega : ¬ B = 0)]
      by_cases h1 : d.length > B
      · rw [if_pos h1]
        have hdrop : (d.drop B).length ≤ n := by simp; omega
        simp only [List.flatten_cons, ih _ hdrop]
        exact List.take_append_drop B d
      · rw [if_neg h1]; simp
  exact key d.length d le_rfl

theorem breakupData_length (B : Nat) (hB : 0 < B) (d : Bytes) (hd : d ≠ []) :
    (breakupData d B).length = (d.length + B - 1) / B := by
  have key : ∀ (n : Nat) (d : Bytes), d.length ≤ n → d ≠ [] →
      (breakupData d B).length = (d.length + B - 1) / B := by
    intro n
    induction n with
    | zero =>
      intro d hd hne
      cases d with
      | nil => exact absurd rfl hne
      | cons a l => simp at hd
    | succ n ih =>
      intro d hd hne
      rw [breakupData, if_neg (by omega : ¬ B = 0)]
      by_cases h1 : d.length > B
      · rw [if_pos h1]
        have hlen : (d.drop B).length = d.length - B := by simp
        have hne' : d.drop B ≠ [] := by
          apply List.length_pos.mp
          omega
        rw [List.length_cons, ih _ (by simp; omega) hne', hlen]
        have e1 : d.length + B - 1 = (d.length - B + B - 1) + B := by omega
        rw [e1, Nat.add_div_right _ hB]
      · rw [if_neg h1]
        have hpos : 0 < d.length := List.length_pos.mpr hne
        show 1 = (d.length + B - 1) / B
        symm
        apply Nat.div_eq_of_lt_le <;> omega
  exact key d.length d le_rfl hd

theorem breakupData_blockLengths (B : Nat) (hB : 0 < B) (d : Bytes) :
    (∀ blk ∈ (breakupData d B).dropLast, blk.length = B) ∧
    (∀ blk ∈ breakupData d B, blk.length ≤ B) := by
  have key : ∀ (n : Nat) (d : Bytes), d.length ≤ n →
      (∀ blk ∈ (breakupData d B).dropLast, blk.length = B) ∧
      (∀ blk ∈ breakupData d B, blk.length ≤ B) := by
    intro n
    induction n with
    | zero =>
      intro d hd
      rw [breakupData, if_neg (by omega : ¬ B = 0), if_neg (by omega : ¬ d.length > B)]
      refine ⟨by simp, ?_⟩
      intro blk hblk
      simp at hblk
      subst hblk
      omega
    | succ n ih =>
      intro d hd
      rw [breakupData, if_neg (by omega : ¬ B = 0)]
      by_cases h1 : d.length > B
      · rw [if_pos h1]
        have hdrop : (d.drop B).length ≤ n := by simp; omega
        have htake : (d.take B).length = B := by simp; omega
        obtain ⟨ih1, ih2⟩ := ih _ hdrop
        constructor
        · intro blk hblk
          rw [List.dropLast_cons_of_ne_nil (breakupData_ne_nil _ _)] at hblk
          rcases List.mem_cons.mp hblk with h | h
          · subst h; exact htake
          · exact ih1 _ h
        · intro blk hblk
          rcases List.mem_cons.mp hblk with h | h
          · subst h; omega
          · exact ih2 _ h
      · rw [if_neg h1]
        refine ⟨by simp, ?_⟩
        intro blk hblk
        simp at hblk
        subst hblk
        omega
  exact key d.length d le_rfl

/-! ## Claims -/

/-- Claim C2 — the spec's contiguous-event-stream scenario fails on the
code: fed the first valid `Channel::UpdateChannelProfile` event frame (id 1,
revision 1, correct hash, accepted signature) laid out per the wire format,
`process_event` hands the channel handler `&message[1..]` (one byte past the
start of the `u64` event id) instead of the payload at offset 9, so the
profile bytes are misparsed, the hash check fails with
`MessageMalformed(InvalidHash)`, the peer is banned and the loop breaks —
`latest_event_id` stays 0 and no profile is ever persisted. -/
theorem quartznet_c2 :
    processEvent scenarioCrypto bootState (profileEventFrame 1 1) =
      .error (.invalidHash "upgrade profile event message") ∧
    loopStep (processEvent scenarioCrypto bootState (profileEventFrame 1 1)) =
      { reportBadPeer := true, continueLoop := false } :=
  ⟨rfl, rfl⟩

/-- Claim C3 — rebroadcast does not exclude the arrival socket and never
reaches the children: for an event received on the parent socket (id 7) of a
node with one child socket (id 9), the child-loop send reuses the parent
socket, so the only attempted send goes to socket 7 (the very socket the
frame arrived on) and socket 9 receives nothing. -/
theorem quartznet_c3 :
    rebroadcastMessage { parentId := 7, childIds := [9] } [42] 7 = [(7, [42])] ∧
    (rebroadcastMessage { parentId := 7, childIds := [9] } [42] 7).filter
      (fun p => p.1 == 9) = [] :=
  ⟨rfl, rfl⟩

/-- Claim C4 — the Posts handler diverges from the claim on the spec's own
scenario (timeline holds ids 0, 2, 3; request start 0, count 4, mask
0b1111): `set_bit` overwrites whole mask bytes so the response bitmask is
`[0b1000]` instead of `[0b1101]`, and the collected `Post` records are
discarded — the payload is only the mask. -/
theorem quartznet_c4 :
    processRequestPosts postsState postsRequest = .ok (.success, [8]) ∧
    ([8] : Bytes) ≠ [13] :=
  ⟨rfl, by decide⟩

/-- Claim C5 — a stale event is not dropped silently: at
`latest_event_id = 2`, an event frame with id 1 makes `id -
*latest_event_id` underflow (wrapping in release mode, a panic in debug
mode), so the anti-DoS check fires and processing fails with
`MessageMalformed(InvalidEventId(1))`, banning the peer and breaking the
loop instead of falling through to the rebroadcast. -/
theorem quartznet_c5 :
    processEvent scenarioCrypto { bootState with latestEventId := 2 } staleFrame =
      .error (.invalidEventId 1) ∧
    loopStep (processEvent scenarioCrypto { bootState with latestEventId := 2 } staleFrame) =
      { reportBadPeer := true, continueLoop := false } :=
  ⟨rfl, rfl⟩

/-- Claim C8 — the session-timeout scenario diverges from the claim: after
`request(42)` times out (returning nothing), the source has not removed the
slot from the map, so a late `respond(42, …)` still finds it and panics in
`tx.send(..).expect("channel closed")` instead of returning `false`. -/
theorem quartznet_c8 :
    ((timeoutFires (startRequest smNew 0 42) 0).waiters 0 = some .timedOut) ∧
    ((timeoutFires (startRequest smNew 0 42) 0).sessions 42 = some 0) ∧
    ((respond (timeoutFires (startRequest smNew 0 42) 0) 42 [1, 2, 3]).2 =
      .panicked) :=
  ⟨rfl, rfl, rfl⟩

/-- Claim C9 counterexample — on the empty byte string `breakup_data`
returns one (empty) slice, not `⌈0/B⌉ = 0` slices: at `d = []`, `B = 1` the
result is `[[]]`, whose length 1 differs from the claimed block count 0. -/
theorem quartznet_c9_cx :
    breakupData [] 1 = [[]] ∧
    (breakupData [] 1).length ≠ (List.length ([] : Bytes) + 1 - 1) / 1 := by
  have h : breakupData ([] : Bytes) 1 = [[]] := by
    rw [breakupData]
    simp
  exact ⟨h, by rw [h]; decide⟩

/-- Claim C9 (amended) — for every byte string `d` and block length
`B > 0`: `breakup_data(d, B)` returns `⌈|d|/B⌉` slices when `d` is
nonempty and a single empty slice when `d` is empty; every slice except
possibly the last has length exactly `B`, all slices have length at most
`B`, their in-order concatenation is `d`, and `hash_blocks` returns the
content hash of each slice in the same order. -/
theorem quartznet_c9 (d : Bytes) (B : Nat) (hB : 0 < B) (H : Bytes → Bytes) :
    (d ≠ [] → (breakupData d B).length = (d.length + B - 1) / B) ∧
    (d = [] → breakupData d B = [[]]) ∧
    (breakupData d B).flatten = d ∧
    (∀ blk ∈ (breakupData d B).dropLast, blk.length = B) ∧
    (∀ blk ∈ breakupData d B, blk.length ≤ B) ∧
    hashBlocks H (breakupData d B) = (breakupData d B).map H := by
  refine ⟨fun h => breakupData_length B hB d h, fun h => ?_,
    breakupData_join B hB d, (breakupData_blockLengths B hB d).1,
    (breakupData_blockLengths B hB d).2, hashBlocks_eq_map H _⟩
  subst h
  rw [breakupData]
  split
  · rfl
  · simp

/-- Claim C9 witness — the amended statement evaluated at `d = [1, 2, 3]`,
`B = 2`. -/
theorem quartznet_c9_witness :
    0 < 2 ∧
    ((([1, 2, 3] : Bytes) ≠ [] →
        (breakupData [1, 2, 3] 2).length = (List.length ([1, 2, 3] : Bytes) + 2 - 1) / 2) ∧
      (([1, 2, 3] : Bytes) = [] → breakupData [1, 2, 3] 2 = [[]]) ∧
      (breakupData [1, 2, 3] 2).flatten = [1, 2, 3] ∧
      (∀ blk ∈ (breakupData [1, 2, 3] 2).dropLast, blk.length = 2) ∧
      (∀ blk ∈ breakupData [1, 2, 3] 2, blk.length ≤ 2) ∧
      hashBlocks id (breakupData [1, 2, 3] 2) = (breakupData [1, 2, 3] 2).map id) :=
  ⟨by decide, quartznet_c9 [1, 2, 3] 2 (by decide) id⟩

/-- Claim C1 — for every inbound event frame whose event id and event type
parse, with the node's `latest_event_id + 1` not overflowing `u64`: the
apply step runs exactly when `event_id = latest_event_id + 1`, and then
`latest_event_id` is set to the event id only when the apply succeeded
(so immediately before a successful apply it equalled the event id minus 1),
while the apply's error is propagated otherwise; every other event — stale
or buffered — leaves `latest_event_id` (and the stored profile)
unchanged. -/
theorem quartznet_c1 (crypto : Crypto) (s : NodeState) (message : Bytes)
    (id : Nat) (r1 : Bytes) (eventType : EventType) (r2 : Bytes)
    (hid : deserU64 message = some (id, r1))
    (het : deserEventType (message.drop 8) = some (eventType, r2))
    (hL : s.latestEventId + 1 < u64Mod) :
    (id = s.latestEventId + 1 →
      processEvent crypto s message =
        (match processEventApply crypto s id eventType (message.drop 1) with
         | .error e => .error e
         | .ok s' => .ok { s' with latestEventId := id })) ∧
    (id ≠ s.latestEventId + 1 →
      ∀ s', processEvent crypto s message = .ok s' →
        s'.latestEventId = s.latestEventId ∧ s'.channelProfile = s.channelProfile) := by
  have hmod : (s.latestEventId + 1) % u64Mod = s.latestEventId + 1 := Nat.mod_eq_of_lt hL
  constructor
  · intro h
    simp only [processEvent, hid, het, hmod, if_pos h]
  · intro h s' hs'
    simp only [processEvent, hid, het, hmod] at hs'
    rw [if_neg h] at hs'
    split at hs'
    · exact Except.noConfusion hs'
    · split at hs'
      · split at hs'
        · injection hs' with h2
          subst h2
          exact ⟨rfl, rfl⟩
        · split at hs'
          · exact Except.noConfusion hs'
          · injection hs' with h2
            subst h2
            exact ⟨rfl, rfl⟩
      · injection hs' with h2
        subst h2
        exact ⟨rfl, rfl⟩

/-- Claim C1 witness — the characterisation applied to the node at
`latest_event_id = 0` receiving the valid revision-1 profile event frame
with id 1. -/
theorem quartznet_c1_witness :
    deserU64 (profileEventFrame 1 1) = some (1, (profileEventFrame 1 1).drop 8) ∧
    deserEventType ((profileEventFrame 1 1).drop 8) =
      some (.channel, (profileEventFrame 1 1).drop 9) ∧
    bootState.latestEventId + 1 < u64Mod ∧
    ((1 = bootState.latestEventId + 1 →
        processEvent scenarioCrypto bootState (profileEventFrame 1 1) =
          (match processEventApply scenarioCrypto bootState 1 .channel
              ((profileEventFrame 1 1).drop 1) with
           | .error e => .error e
           | .ok s' => .ok { s' with latestEventId := 1 })) ∧
      (1 ≠ bootState.latestEventId + 1 →
        ∀ s', processEvent scenarioCrypto bootState (profileEventFrame 1 1) = .ok s' →
          s'.latestEventId = bootState.latestEventId ∧
          s'.channelProfile = bootState.channelProfile)) :=
  ⟨rfl, rfl, by decide,
    quartznet_c1 scenarioCrypto bootState (profileEventFrame 1 1) 1
      ((profileEventFrame 1 1).drop 8) .channel ((profileEventFrame 1 1).drop 9)
      rfl rfl (by decide)⟩

/-- Claim C6 — for every inbound event frame whose event id and event type
parse, if the id exceeds the node's `latest_event_id` by more than 100,
processing fails with `MessageMalformed(InvalidEventId(id))` and the receive
loop reports the peer bad and terminates. -/
theorem quartznet_c6 (crypto : Crypto) (s : NodeState) (message : Bytes)
    (id : Nat) (r1 : Bytes) (eventType : EventType) (r2 : Bytes)
    (hid : deserU64 message = some (id, r1))
    (het : deserEventType (message.drop 8) = some (eventType, r2))
    (hL : s.latestEventId < u64Mod) (hidlt : id < u64Mod)
    (hgap : s.latestEventId + 100 < id) :
    processEvent crypto s message = .error (.invalidEventId id) ∧
    loopStep (processEvent crypto s message) =
      { reportBadPeer := true, continueLoop := false } := by
  have h1 : id ≠ (s.latestEventId + 1) % u64Mod := by
    have := Nat.mod_le (s.latestEventId + 1) u64Mod
    omega
  have h2 : (id + u64Mod - s.latestEventId % u64Mod) % u64Mod > 100 := by
    rw [Nat.mod_eq_of_lt hL]
    have e1 : id + u64Mod - s.latestEventId = (id - s.latestEventId) + u64Mod := by omega
    rw [e1, Nat.add_mod_right, Nat.mod_eq_of_lt (by omega)]
    omega
  have hmain : processEvent crypto s message = .error (.invalidEventId id) := by
    simp only [processEvent, hid, het]
    rw [if_neg h1, if_pos h2]
  exact ⟨hmain, by rw [hmain]; rfl⟩

/-- Claim C6 witness — the DoS bound at `latest_event_id = 0` fed the event
frame with id 101. -/
theorem quartznet_c6_witness :
    deserU64 dosFrame = some (101, dosFrame.drop 8) ∧
    deserEventType (dosFrame.drop 8) = some (.channel, dosFrame.drop 9) ∧
    bootState.latestEventId < u64Mod ∧ 101 < u64Mod ∧
    bootState.latestEventId + 100 < 101 ∧
    (processEvent scenarioCrypto bootState dosFrame =
        .error (.invalidEventId 101) ∧
      loopStep (processEvent scenarioCrypto bootState dosFrame) =
        { reportBadPeer := true, continueLoop := false }) :=
  ⟨rfl, rfl, by decide, by decide, by decide,
    quartznet_c6 scenarioCrypto bootState dosFrame 101 (dosFrame.drop 8) .channel
      (dosFrame.drop 9) rfl rfl (by decide) (by decide) (by decide)⟩

/-- Claim C7 — a parsed `UpdateChannelProfile` event whose hash and owner
signature validate succeeds, storing the contained profile exactly when
there is no stored profile or the new revision is strictly greater
(lower-or-equal revisions are a no-op, not an error); consequently the
stored profile revision never decreases across applied updates. -/
theorem quartznet_c7 (crypto : Crypto) (s : NodeState) (id : Nat) (message : Bytes)
    (msg : UpdateChannelProfileEventMessage) (rest : Bytes)
    (hparse : deserUCPEM message = some (msg, rest))
    (hhash : crypto.hashGen (serChannelProfile msg.profile) = msg.hash)
    (hsig : crypto.verifyHash msg.signature msg.hash s.channelAddress = true) :
    processEventChannelUpdateProfile crypto s id message =
      .ok (match s.channelProfile with
           | none => { s with channelProfile := some msg.profile }
           | some current =>
             if current.base.revision < msg.profile.base.revision then
               { s with channelProfile := some msg.profile }
             else s) ∧
    (∀ s' c c', processEventChannelUpdateProfile crypto s id message = .ok s' →
      s.channelProfile = some c → s'.channelProfile = some c' →
      c.base.revision ≤ c'.base.revision) := by
  have hmain : processEventChannelUpdateProfile crypto s id message =
      .ok (match s.channelProfile with
           | none => { s with channelProfile := some msg.profile }
           | some current =>
             if current.base.revision < msg.profile.base.revision then
               { s with channelProfile := some msg.profile }
             else s) := by
    simp only [processEventChannelUpdateProfile, hparse, hhash, hsig]
    cases hcp : s.channelProfile with
    | none => simp
    | some current =>
      by_cases hrev : current.base.revision < msg.profile.base.revision
      · simp [hrev]
      · simp [hrev]
  refine ⟨hmain, ?_⟩
  intro s' c c' hok hc hc'
  have hmain2 : processEventChannelUpdateProfile crypto s id message =
      .ok (if c.base.revision < msg.profile.base.revision then
             { s with channelProfile := some msg.profile }
           else s) := by
    rw [hmain, hc]
  rw [hmain2] at hok
  injection hok with h2
  subst h2
  by_cases hrev : c.base.revision < msg.profile.base.revision
  · rw [if_pos hrev] at hc'
    have h3 : msg.profile = c' := by simpa using hc'
    exact h3 ▸ Nat.le_of_lt hrev
  · rw [if_neg hrev] at hc'
    rw [hc] at hc'
    have h3 : c = c' := by simpa using hc'
    exact h3 ▸ Nat.le_refl _

/-- Claim C7 witness — the characterisation applied to the freshly
bootstrapped node (no stored profile) and the valid revision-1 profile
message. -/
theorem quartznet_c7_witness :
    deserUCPEM profileMsgBytes = some (profileMsg, []) ∧
    scenarioCrypto.hashGen (serChannelProfile profileMsg.profile) = profileMsg.hash ∧
    scenarioCrypto.verifyHash profileMsg.signature profileMsg.hash
      bootState.channelAddress = true ∧
    (processEventChannelUpdateProfile scenarioCrypto bootState 1 profileMsgBytes =
        .ok (match bootState.channelProfile with
             | none => { bootState with channelProfile := some profileMsg.profile }
             | some current =>
               if current.base.revision < profileMsg.profile.base.revision then
                 { bootState with channelProfile := some profileMsg.profile }
               else bootState) ∧
      (∀ s' c c',
        processEventChannelUpdateProfile scenarioCrypto bootState 1 profileMsgBytes =
          .ok s' →
        bootState.channelProfile = some c → s'.channelProfile = some c' →
        c.base.revision ≤ c'.base.revision)) :=
  ⟨rfl, rfl, rfl,
    quartznet_c7 scenarioCrypto bootState 1 profileMsgBytes profileMsg [] rfl rfl rfl⟩

/-- Claim C10 — when `request` is invoked for a session id whose earlier
waiter is still pending, the `HashMap::insert` overwrites the slot and drops
the earlier waiter's sender, so that waiter panics ("channel closed")
instead of returning nothing. -/
theorem quartznet_c10 (st : SessionState) (w w' sessionId : Nat)
    (hslot : st.sessions sessionId = some w)
    (hpending : st.waiters w = some .pending)
    (hne : w ≠ w') :
    (startRequest st w' sessionId).waiters w = some .panicked := by
  simp only [startRequest]
  rw [if_neg hne]
  rw [if_pos ⟨hslot, hpending⟩]

/-- Claim C10 witness — waiter 0 requests session 42, then waiter 1
requests session 42 while waiter 0 still pends: waiter 0 panicks. -/
theorem quartznet_c10_witness :
    (startRequest smNew 0 42).sessions 42 = some 0 ∧
    (startRequest smNew 0 42).waiters 0 = some .pending ∧
    (0 : Nat) ≠ 1 ∧
    (startRequest (startRequest smNew 0 42) 1 42).waiters 0 = some .panicked :=
  ⟨rfl, rfl, by decide, quartznet_c10 (startRequest smNew 0 42) 0 1 42 rfl rfl (by decide)⟩

end Quartznet
